import Mathlib

/-!
Verification of the `wws_api` XML extraction engine against its
natural-language specification.

The development shallowly embeds the two source modules:

* `src/wws_api/process_data.py` — the extraction engine (`_pull_data`,
  `_next_tags`, `_extract_element_data`, `_shorten_column_name`, and the
  column-rename pass of `to_pyarrow`), and
* `src/wws_api/request_data.py` — the SOAP envelope builder
  (`create_payload`, `escape_html`).

Python strings are modelled as `List Char` (named `Str` below) so that all
the string operations the code relies on (`in`, `split`, `replace`,
`find`, `rfind`, `strip`, slicing) are fully executable and inductively
analysable.  Python dictionaries with insertion order are modelled as
association lists with python `dict.update` semantics (`rowUpdate`).
Fallible python code (uncaught exceptions: `NameError`, `IndexError`,
`ValueError`, `AttributeError`, `TypeError`, and lxml
`XPathEvalError`) is modelled with `Except Str`.
-/

/-- Python strings, modelled as lists of characters. -/
abbrev Str := List Char

/-- The apostrophe character (written via its code point so the file stays
free of quote-escape sequences). -/
def apos : Char := Char.ofNat 39

/-- The newline character. -/
def nlChar : Char := Char.ofNat 10

/-- Substring test `needle in haystack`, core recursion over the haystack,
for a needle split into head and tail.  Models python `in` for a nonempty
needle. -/
def hasSubCore (n0 : Char) (ns : Str) : Str → Bool
  | [] => false
  | c :: rest => (c = n0 && ns.isPrefixOf rest) || hasSubCore n0 ns rest

/-- Python substring containment `pat in l`.  The empty pattern is
contained in everything, as in python. -/
def hasSub (pat l : Str) : Bool :=
  match pat with
  | [] => true
  | p0 :: ps => hasSubCore p0 ps l

/-- Core of python `str.replace`: replaces every non-overlapping,
left-to-right occurrence of `p0 :: ps` by `repl`.  The `Nat` argument is
a structural skip counter: a positive value means that many characters
still belong to an already-matched separator occurrence (this replaces
`(rest.drop ps.length)` recursion so the function stays structural and
kernel-reducible). -/
def replaceCore (p0 : Char) (ps repl : Str) : Str → Nat → Str
  | [], _ => []
  | _ :: rest, n + 1 => replaceCore p0 ps repl rest n
  | c :: rest, 0 =>
    if c = p0 && ps.isPrefixOf rest then repl ++ replaceCore p0 ps repl rest ps.length
    else c :: replaceCore p0 ps repl rest 0

/-- Python `l.replace(pat, repl)`.  The sources never call `replace` with
an empty pattern, so the empty-pattern case just returns the input. -/
def replaceStr (pat repl l : Str) : Str :=
  match pat with
  | [] => l
  | p0 :: ps => replaceCore p0 ps repl l 0

/-- Core of python `str.split` for a nonempty separator `s0 :: ss`:
non-overlapping left-to-right scan, with the same structural skip counter
as `replaceCore`. -/
def splitCore (s0 : Char) (ss : Str) : Str → Nat → List Str
  | [], _ => [[]]
  | _ :: rest, n + 1 => splitCore s0 ss rest n
  | c :: rest, 0 =>
    if c = s0 && ss.isPrefixOf rest then [] :: splitCore s0 ss rest ss.length
    else
      match splitCore s0 ss rest 0 with
      | [] => [[c]]
      | h :: t => (c :: h) :: t

/-- Python `l.split(sep)`.  The sources never split on an empty separator,
so that case returns the one-piece list. -/
def splitOnStr (sep l : Str) : List Str :=
  match sep with
  | [] => [l]
  | s0 :: ss => splitCore s0 ss l 0

/-- Helper returning the suffix of `l` after the last occurrence of the
separator `s0 :: ss`, if the separator occurs at all. -/
def lastAfterCore (s0 : Char) (ss : Str) : Str → Option Str
  | [] => none
  | c :: rest =>
    match lastAfterCore s0 ss rest with
    | some r => some r
    | none => if c = s0 && ss.isPrefixOf rest then some (rest.drop ss.length) else none

/-- Python `l.split(sep)[-1]` — the text after the last occurrence of
`sep`, or all of `l` when `sep` does not occur.  For separators that
cannot overlap themselves (the only one used is `"/wd:"`) this is exactly
the final piece produced by `str.split`. -/
def lastSegAfter (sep l : Str) : Str :=
  match sep with
  | [] => l
  | s0 :: ss =>
    match lastAfterCore s0 ss l with
    | some r => r
    | none => l

/-- Python `str.strip()`: drop whitespace from both ends. -/
def pyStrip (l : Str) : Str :=
  ((l.dropWhile Char.isWhitespace).reverse.dropWhile Char.isWhitespace).reverse

/-- Python `str.lower()` (the code only lowercases ASCII search terms). -/
def toLowerStr (l : Str) : Str := l.map Char.toLower

/-- Python `col.find(ch, start)`: index of the first occurrence of `ch`
at or after `start`, if any. -/
def findCharFrom (ch : Char) : Str → Nat → Option Nat
  | [], _ => none
  | c :: rest, 0 => if c = ch then some 0 else (findCharFrom ch rest 0).map (· + 1)
  | _ :: rest, s + 1 => (findCharFrom ch rest s).map (· + 1)

/-- Python `col.rfind(ch, 0, stop)`: index of the last occurrence of `ch`
strictly before `stop`, if any. -/
def rfindCharBefore (ch : Char) : Str → Nat → Option Nat
  | [], _ => none
  | _, 0 => none
  | c :: rest, s + 1 =>
    match rfindCharBefore ch rest s with
    | some j => some (j + 1)
    | none => if c = ch then some 0 else none

/-- Python `col[-n:]` for `n = max_length`.  Mirrors the `n = 0` quirk of
python negative-zero slicing (`col[-0:]` is the whole string); all call
sites in the source pass a positive maximum. -/
def lastN (col : Str) (n : Nat) : Str :=
  if n = 0 then col else col.drop (col.length - n)

/-- Source `_shorten_column_name` fallback: the `else` arm taken when
`col.find('_', start_index)` fails or its result does not fit. -/
def shortenFallback (col : Str) (maxLength startIndex : Nat) : Str :=
  match rfindCharBefore '_' col startIndex with
  | some j =>
    if col.length - j - 1 ≤ maxLength then col.drop (j + 1) else lastN col maxLength
  | none => lastN col maxLength

/-- Source `_shorten_column_name(col, max_length)`: keep short names; for
long ones prefer the suffix starting right after the first underscore at
or after `len(col) - max_length`, then right after the last underscore
before that point when the remainder fits, else the last `max_length`
characters. -/
def shortenColumnName (col : Str) (maxLength : Nat) : Str :=
  if col.length ≤ maxLength then col
  else
    let startIndex := col.length - maxLength
    match findCharFrom '_' col startIndex with
    | some i =>
      if col.length - i - 1 ≤ maxLength then col.drop (i + 1)
      else shortenFallback col maxLength startIndex
    | none => shortenFallback col maxLength startIndex

/-- XML element: local tag name, attributes (local name / value pairs),
text content and child elements.  All tags and attributes in the source
documents are qualified under the single fixed `wd` namespace
(`urn:com.workday/bsvc`), so the model stores local names and treats the
`wd:` prefix of path expressions as part of the path syntax. -/
inductive XmlElem where
  | node (tag : Str) (attrs : List (Str × Str)) (text : Option Str) (children : List XmlElem)

/-- Local tag name of an element. -/
def XmlElem.tagName : XmlElem → Str
  | .node t _ _ _ => t

/-- Attribute list of an element. -/
def XmlElem.attrsList : XmlElem → List (Str × Str)
  | .node _ a _ _ => a

/-- Text content of an element (python `elem.text`, `None` when absent). -/
def XmlElem.textOpt : XmlElem → Option Str
  | .node _ _ t _ => t

/-- Child elements, in document order. -/
def XmlElem.childrenList : XmlElem → List XmlElem
  | .node _ _ _ c => c

/-- Python `element.get(name)`: the value of the named attribute. -/
def attrGet (e : XmlElem) (k : Str) : Option Str :=
  (e.attrsList.find? (fun p => p.1 == k)).map (·.2)

/-- Result of an lxml `xpath` query: element nodes, or attribute-value
strings (lxml returns plain strings for `@attr` paths). -/
inductive XNode where
  | el (e : XmlElem)
  | attrv (s : Str)

/-- Python values stored in a row dictionary: `None`, strings, raw nodes
and lists. -/
inductive PyVal where
  | none_
  | str (s : Str)
  | node (e : XmlElem)
  | lstV (vs : List PyVal)

/-- Row dictionaries: insertion-ordered python dicts keyed by strings. -/
abbrev Row := List (Str × PyVal)

/-- Python `dict[k] = v` / `dict.update({k: v})`: overwrite in place when
the key exists, append otherwise. -/
def rowUpdate (r : Row) (k : Str) (v : PyVal) : Row :=
  if (r.map Prod.fst).contains k then
    r.map (fun p => if p.1 == k then (p.1, v) else p)
  else r ++ [(k, v)]

/-- Python `dict.update(other)` for a whole dictionary, key by key in
insertion order. -/
def rowFold (r : Row) (other : Row) : Row :=
  other.foldl (fun a kv => rowUpdate a kv.1 kv.2) r

/-- Wrap an element text as the python value stored in a row. -/
def pyOfOpt : Option Str → PyVal
  | some s => .str s
  | none => .none_

/-- Python `hasattr(node, "text")`: true for elements, false for the
plain strings lxml returns for attribute paths. -/
def hasText : XNode → Bool
  | .el _ => true
  | .attrv _ => false

/-- Text of a node; only meaningful when `hasText` holds. -/
def textOfNode : XNode → Option Str
  | .el e => e.textOpt
  | .attrv _ => none

/-- A node stored directly in a row (source line 378): elements are kept
as raw objects, attribute results are plain strings. -/
def pyvalOfNode : XNode → PyVal
  | .el e => .node e
  | .attrv s => .str s

/-- Python `node.text` where `node` may be an attribute string, which has
no `text` attribute and raises `AttributeError` (source lines 387, 396). -/
def nodeTextE : XNode → Except Str PyVal
  | .el e => .ok (pyOfOpt e.textOpt)
  | .attrv _ => .error ("AttributeError: ResultStr object has no attribute text".toList)

/-- Child elements of `e` whose local name is `t`, in document order. -/
def childrenNamed (e : XmlElem) (t : Str) : List XmlElem :=
  e.childrenList.filter (fun c => c.tagName == t)

/-- Error raised by lxml when an xpath expression cannot be parsed (for
example the empty expression produced after all wildcard alternatives of
a tag failed to parse, or an expression still containing directive
syntax). -/
def xpathErrMsg : Str := "XPathEvalError: Invalid expression".toList

/-- Validity of one relative path segment in the xpath subset the tag
mini-language generates: a plain namespace-local element name. -/
def validSeg (s : Str) : Bool :=
  !s.isEmpty && s.all (fun c => c.isAlphanum || c = '_')

/-- Model of `element.xpath(expr, namespaces=ns)` for the expression
subset the engine generates from well-formed directives: `./@wd:Name`
attribute lookups and `./wd:A/wd:B/...` child paths.  Anything else —
in particular the empty expression — raises, as lxml does for malformed
expressions. -/
def xpathEval (expr : Str) (e : XmlElem) : Except Str (List XNode) :=
  if ("./@wd:".toList).isPrefixOf expr then
    let name := expr.drop 6
    if validSeg name then
      .ok (match attrGet e name with
        | some v => [XNode.attrv v]
        | none => [])
    else .error xpathErrMsg
  else if ("./wd:".toList).isPrefixOf expr then
    let segs := splitOnStr ("/wd:".toList) (expr.drop 5)
    if segs.all validSeg then
      .ok ((segs.foldl (fun es s => es.flatMap (fun x => childrenNamed x s)) [e]).map XNode.el)
    else .error xpathErrMsg
  else .error xpathErrMsg

mutual

/-- Source `_extract_element_data(element, ns, prefix, max_length)`.
Faithful to the source: attribute keys first, then either recursion into
children or the text leaf; keys are shortened as they are built.  The
source also threads an `existing_keys` set, but only ever adds to it —
it never influences the returned dictionary — so it is not part of the
model. -/
def extractElementData (maxLength : Nat) (pfx : Str) : XmlElem → Row
  | .node _ _ _ children => extractChildList maxLength pfx children []
termination_by structural e => e

/-- Loop body of `_extract_element_data` over the child list, carrying
the accumulated `data` dictionary. -/
def extractChildList (maxLength : Nat) (pfx : Str) : List XmlElem → Row → Row
  | [], data => data
  | c :: rest, data =>
    let key := shortenColumnName (if pfx.isEmpty then c.tagName else pfx ++ '_' :: c.tagName) maxLength
    let data1 := c.attrsList.foldl
      (fun d av => rowUpdate d (shortenColumnName (key ++ '_' :: av.1) maxLength) (PyVal.str av.2)) data
    let data2 :=
      if c.childrenList.isEmpty then rowUpdate data1 key (pyOfOpt c.textOpt)
      else rowFold data1 (extractElementData maxLength key c)
    extractChildList maxLength pfx rest data2
termination_by structural l _ => l

end

/-- Error raised by the repeat-anchor branch of `_pull_data` (source line
256): the recursive call is made through the name `pull_data`, which is
not defined anywhere in the module (the function is `_pull_data`), so any
tag containing the repeat-anchor marker raises at run time. -/
def nameErrorMsg : Str := "NameError: name pull_data is not defined".toList

/-- Error raised at source line 361-362 when an or-chain tag carries no
rename delimiter: `tag.split('|=')` yields a single piece and the
unguarded `typename[1]` access raises. -/
def indexErrMsg : Str := "IndexError: list index out of range".toList

/-- Error raised when an unpacking assignment receives the wrong number
of pieces (only reachable through a tag holding several rename markers). -/
def valueErrMsg : Str := "ValueError: too many values to unpack".toList

/-- Error raised when a flatten-all path resolves to attribute strings,
which `_extract_element_data` cannot iterate as elements. -/
def flattenTypeErrMsg : Str := "AttributeError: str object has no attribute tag".toList

/-- Error raised by `len(None)` when an or-chain has no alternatives;
unreachable because `str.split` always returns at least one piece. -/
def noneLenErrMsg : Str := "TypeError: object of type NoneType has no len()".toList

/-- Upper-case alphabet literal used by the wildcard `translate` calls. -/
def upperAlphabet : Str := "ABCDEFGHIJKLMNOPQRSTUVWXYZ".toList

/-- Lower-case alphabet literal used by the wildcard `translate` calls. -/
def lowerAlphabet : Str := "abcdefghijklmnopqrstuvwxyz".toList

/-- Builds the xpath `contains(translate(...))` expression synthesized by
the wildcard branch (source lines 344, 347, 350) for a given selector
(`ID` or `*`), probe (`@wd:type`, `text()` or `local-name()`) and
already-lowercased search term. -/
def containsExpr (selector probe term : Str) : Str :=
  selector ++ "[contains(translate(".toList ++ probe ++ ", ".toList
    ++ [apos] ++ upperAlphabet ++ [apos] ++ ", ".toList
    ++ [apos] ++ lowerAlphabet ++ [apos] ++ "), ".toList
    ++ [apos] ++ term ++ [apos] ++ ")]".toList

/-- Parses one wildcard alternative (source lines 330-354).  Returns
`none` when the alternative is malformed — the `%`-split does not give
exactly three parts, the search part has no `?=`, or the data type is
unknown — which the source catches/reports and skips. -/
def wildcardAlt (i : Str) : Option Str :=
  match splitOnStr ("%".toList) i with
  | [xps, sp, eop] =>
    (match splitOnStr ("?=".toList) sp with
     | [term, dt] =>
       let xps := pyStrip xps
       let term := pyStrip term
       let dt := pyStrip dt
       let eop := pyStrip eop
       if dt = "type".toList then some (xps ++ containsExpr ("ID".toList) ("@wd:type".toList) (toLowerStr term) ++ eop)
       else if dt = "text".toList then some (xps ++ containsExpr ("ID".toList) ("text()".toList) (toLowerStr term) ++ eop)
       else if dt = "tag".toList then some (xps ++ containsExpr ("*".toList) ("local-name()".toList) (toLowerStr term) ++ eop)
       else none
     | _ => none)
  | _ => none

/-- Wildcard preprocessing of a whole tag (source lines 325-355): split on
the or-marker, rebuild every well-formed alternative, silently drop the
malformed ones (they are only printed), and join the rebuilt expressions
back with the or-marker. -/
def wildcardRebuild (tag : Str) : Str :=
  let multi := splitOnStr ("||".toList) tag
  let xs := multi.foldl (fun acc i =>
    match wildcardAlt i with
    | some x => acc ++ [x]
    | none => acc) []
  List.intercalate ("||".toList) xs

/-- Per-element mutable state of `_pull_data`: the rows already flushed to
`row_list` by fan-outs, the accumulated `row_dict`, and the
`added_to_list` flag. -/
structure ElemState where
  rows : List Row
  dict : Row
  added : Bool

/-- The or-chain loop (source lines 363-368): evaluate each alternative in
order; on the first alternative resolving to exactly one node, record
that node's `wd:type` attribute under the rename target and stop; the
returned node list is whatever the last evaluated alternative yielded. -/
def orChainLoop (element : XmlElem) (tname : Str) (dict : Row) : List Str → Except Str (List XNode × Row)
  | [] => .error noneLenErrMsg
  | i :: rest =>
    match xpathEval i element with
    | .error m => .error m
    | .ok res =>
      match res with
      | [n] =>
        (match n with
         | .el b => .ok ([n], rowUpdate dict tname (pyOfOpt (attrGet b ("type".toList))))
         | .attrv _ => .error ("AttributeError: ResultStr object has no attribute get".toList))
      | _ =>
        match rest with
        | [] => .ok (res, dict)
        | _ :: _ => orChainLoop element tname dict rest

/-- The `ADD ELEMENT TO ROW_DICT` tail of the tag loop (source lines
373-399), shared by the plain and or-chain paths: a single match writes
the text (or the raw node for attribute strings); multiple matches either
pack a list into the cell (`allow_collections`) or fan the accumulated
row out into one row per match. -/
def addElem (allowC : Bool) (name : Str) (res : List XNode) (st : ElemState) : Except Str ElemState :=
  match res with
  | [n] =>
    if hasText n then .ok ⟨st.rows, rowUpdate st.dict name (pyOfOpt (textOfNode n)), st.added⟩
    else .ok ⟨st.rows, rowUpdate st.dict name (pyvalOfNode n), st.added⟩
  | [] => .ok st
  | n0 :: _ :: _ =>
    if allowC then
      if hasText n0 then
        match res.mapM nodeTextE with
        | .error m => .error m
        | .ok vs => .ok ⟨st.rows, rowUpdate st.dict name (PyVal.lstV vs), st.added⟩
      else .ok ⟨st.rows, rowUpdate st.dict name (PyVal.lstV (res.map pyvalOfNode)), st.added⟩
    else
      match res.mapM nodeTextE with
      | .error m => .error m
      | .ok vs => .ok ⟨st.rows ++ vs.map (fun v => rowUpdate st.dict name v), st.dict, true⟩

/-- Checks that every matched node is an element, as the flatten-all
branch requires before calling `_extract_element_data`. -/
def nodesAsElems : List XNode → Except Str (List XmlElem) :=
  List.mapM (fun n => match n with
    | .el e => .ok e
    | .attrv _ => .error flattenTypeErrMsg)

/-- One step of the flatten-all collection loop (source lines 274-280):
merge one extracted dictionary into the per-key value lists. -/
def collectStep (acc : List (Str × List PyVal)) (nested : Row) : List (Str × List PyVal) :=
  nested.foldl (fun a kv =>
    if (a.map Prod.fst).contains kv.1 then
      a.map (fun p => if p.1 == kv.1 then (p.1, p.2 ++ [kv.2]) else p)
    else a ++ [(kv.1, [kv.2])]) acc

/-- The flatten-all collection result (source lines 272-281): per-key
lists over all matched elements, then stored as list-valued cells. -/
def collectAll (els : List XmlElem) : Row :=
  (els.foldl (fun acc ee => collectStep acc (extractElementData 63 [] ee)) []).map
    (fun p => (p.1, PyVal.lstV p.2))

/-- The non-repeat, non-flatten arm of the tag loop (source lines
296-399), after the rename suffix has been split off: attribute lookup,
wildcard preprocessing, or-chain evaluation or plain lookup, then the
shared add-to-row tail. -/
def processPlain (allowC : Bool) (element : XmlElem) (st : ElemState) (tag name : Str) : Except Str ElemState :=
  if hasSub ("@@".toList) tag then
    let tmpTag := replaceStr ("wd:@@".toList) ("@wd:".toList) tag
    let tag2 := replaceStr ("@@".toList) [] tag
    let t := replaceStr ("./wd:".toList) [] tag2
    match attrGet element t with
    | some v => .ok ⟨st.rows, rowUpdate st.dict name (PyVal.str v), st.added⟩
    | none =>
      match xpathEval tmpTag element with
      | .error m => .error m
      | .ok res =>
        .ok ⟨st.rows, rowUpdate st.dict name
          (match res with
           | [] => PyVal.none_
           | n :: _ => pyvalOfNode n), st.added⟩
  else
    let tagW := if hasSub ("%".toList) tag then wildcardRebuild tag else tag
    if hasSub ("||".toList) tagW then
      match splitOnStr ("|=".toList) tagW with
      | [] => .error indexErrMsg
      | [_] => .error indexErrMsg
      | _ :: tname :: _ =>
        let tagR := replaceStr (("|=".toList) ++ tname) [] tagW
        match orChainLoop element tname st.dict (splitOnStr ("||".toList) tagR) with
        | .error m => .error m
        | .ok (res, dict2) => addElem allowC name res ⟨st.rows, dict2, st.added⟩
    else
      match xpathEval tagW element with
      | .error m => .error m
      | .ok res => addElem allowC name res st

/-- One iteration of the tag loop of `_pull_data` (source lines 251-399)
for one tag against one record element. -/
def processTag (allowC : Bool) (element : XmlElem) (st : ElemState) (tag : Str) : Except Str ElemState :=
  if hasSub ("*".toList) tag then
    .error nameErrorMsg
  else if hasSub ("~".toList) tag then
    let parentPath := pyStrip (replaceStr ("~".toList) [] tag)
    match xpathEval parentPath element with
    | .error m => .error m
    | .ok elems =>
      match elems with
      | [] => .ok ⟨st.rows, rowUpdate st.dict tag PyVal.none_, true⟩
      | [n] =>
        (match n with
         | .el ee => .ok ⟨st.rows, rowFold st.dict (extractElementData 63 [] ee), true⟩
         | .attrv _ => .error flattenTypeErrMsg)
      | _ :: _ :: _ =>
        match nodesAsElems elems with
        | .error m => .error m
        | .ok els =>
          if allowC then .ok ⟨st.rows, rowFold st.dict (collectAll els), true⟩
          else .ok ⟨st.rows ++ els.map (fun ee => rowFold st.dict (extractElementData 63 [] ee)), st.dict, true⟩
  else
    match splitOnStr ("^^".toList) tag with
    | [t1] => processPlain allowC element st t1 t1
    | [t1, n1] => processPlain allowC element st t1 n1
    | _ => .error valueErrMsg

/-- Processing of one record element by `_pull_data`: run the tag loop,
then append the accumulated row unless a fan-out or flatten-all already
flushed (or suppressed) it (source lines 401-402). -/
def procElement (allowC : Bool) (hl : Row) (tags : List Str) (element : XmlElem) : Except Str (List Row) :=
  match tags.foldlM (fun s t => processTag allowC element s t) (ElemState.mk [] hl false) with
  | .error m => .error m
  | .ok st => .ok (if st.added then st.rows else st.rows ++ [st.dict])

/-- Source `_pull_data(responses, tags, ns, high_level_tags,
allow_collections)`: loop over the record elements, starting each row
from a copy of the inherited high-level tags.  The namespace mapping is
fixed throughout the module and is part of the `xpathEval` model.  The
repeat-anchor branch raises `NameError` (see `nameErrorMsg`) before it
can recurse, so the model needs no recursion here. -/
def pullData (responses : List XmlElem) (tags : List Str) (highLevelTags : Option Row) (allowCollections : Bool) : Except Str (List Row) :=
  responses.foldlM (fun acc e =>
    match procElement allowCollections (highLevelTags.getD []) tags e with
    | .error m => .error m
    | .ok rs => .ok (acc ++ rs)) []

/-- Source `_next_tags(tags, curr_tag)`: the tags strictly after the
first occurrence of `curr_tag`. -/
def nextTags (tags : List Str) (currTag : Str) : List Str :=
  (tags.foldl (fun (st : Bool × List Str) t =>
    let acc := if st.1 then st.2 ++ [t] else st.2
    let act := if t == currTag && !st.1 then true else st.1
    (act, acc)) (false, [])).2

/-- Tag preprocessing in `to_pyarrow` (source lines 147-148): qualify the
path under the `wd` namespace and requalify every or-chain alternative. -/
def preprocessTags (tags : List Str) : List Str :=
  (tags.map (fun t => ("./wd:".toList) ++ replaceStr (">>".toList) ("/wd:".toList) t)).map
    (fun t => replaceStr ("||".toList) (("||".toList) ++ ("./wd:".toList)) t)

/-- The lazy group of `re.search(r"=(.*?)\]", col)` once a match starting
at the current position is known to exist: the characters up to the first
closing bracket. -/
def takeUntilRB (l : Str) : Str := l.takeWhile (fun c => c ≠ ']')

/-- Model of `re.search(r"=(.*?)\]", col)` (source line 158): the match
starts at the leftmost `=` that is followed by a `]` with no intervening
newline (`.` does not match newlines), and the lazy group runs up to the
first such `]`. -/
def reSearchEqBracket : Str → Option Str
  | [] => none
  | c :: rest =>
    if c = '=' && ((rest.takeWhile (fun x => x ≠ nlChar)).contains ']') then
      some (takeUntilRB rest)
    else reSearchEqBracket rest

/-- The column-rename computation of `to_pyarrow` (source lines 155-165)
applied to one column name: extract the bracketed discriminator literal
and strip its quotes when the regex matches, otherwise reduce a
namespace-qualified path to its last segment, otherwise leave the name
unchanged.  `col_rename.get(name, name)` makes the mapping total. -/
def colRename (col : Str) : Str :=
  match reSearchEqBracket col with
  | some g => g.filter (fun c => c ≠ apos)
  | none =>
    if hasSub ("/wd:".toList) col then lastSegAfter ("/wd:".toList) col
    else col

/-- Source `escape_html` / `html.escape`: per-character expansion of the
five special characters into entities.  `html.escape` replaces `&` first
and the later replacements cannot re-trigger it, so the sequential
`str.replace` chain is exactly this character-wise expansion. -/
def escChar (c : Char) : Str :=
  if c = '&' then "&amp;".toList
  else if c = '<' then "&lt;".toList
  else if c = '>' then "&gt;".toList
  else if c = '"' then "&quot;".toList
  else if c = apos then '&' :: "#x27;".toList
  else [c]

/-- Source `escape_html(text)`. -/
def escapeHtml (t : Str) : Str := t.flatMap escChar

/-- Literal template text of the SOAP envelope f-string before the
`{username}` placeholder (source lines 40-49). -/
def soapTmpl1 : Str :=
  ("\n    <?xml version=\"1.0\" encoding=\"utf-8\"?>\n    <env:Envelope\n            xmlns:env=\"http://schemas.xmlsoap.org/soap/envelope/\"\n            xmlns:xsd=\"http://www.w3.org/2001/XMLSchema\"\n            xmlns:wsse=\"http://docs.oasis-open.org/wss/2004/01/oasis-200401-wss-wssecurity-secext-1.0.xsd\">\n        <env:Header>\n            <wsse:Security env:mustUnderstand=\"1\">\n                <wsse:UsernameToken>\n                    <wsse:Username>").toList

/-- Template text between `{username}` and `{escaped_password}` (source
lines 49-52). -/
def soapTmpl2 : Str :=
  ("</wsse:Username>\n                    <wsse:Password\n                            Type=\"http://docs.oasis-open.org/wss/2004/01/oasis-200401-wss-username-token-profile-1.0#PasswordText\">\n                        ").toList

/-- Template text between `{escaped_password}` and `{xml_body}` (source
lines 53-58). -/
def soapTmpl3 : Str :=
  ("\n                    </wsse:Password>\n                </wsse:UsernameToken>\n            </wsse:Security>\n        </env:Header>\n        <env:Body>\n            ").toList

/-- Template text after `{xml_body}` (source lines 59-61). -/
def soapTmpl4 : Str :=
  ("\n        </env:Body>\n    </env:Envelope>\n    ").toList

/-- Source `create_payload(username, password, xml_body)`: the f-string
with the three interpolations — password HTML-escaped, username and body
verbatim — followed by `.strip()`. -/
def createPayload (username password xmlBody : Str) : Str :=
  pyStrip (soapTmpl1 ++ username ++ soapTmpl2 ++ escapeHtml password ++ soapTmpl3 ++ xmlBody ++ soapTmpl4)

/-- The stripped leading template text: what `createPayload` actually
starts with after `.strip()`. -/
def soapPre : Str := soapTmpl1.dropWhile Char.isWhitespace

/-- The stripped trailing template text: what `createPayload` actually
ends with after `.strip()`. -/
def soapPost : Str := (soapTmpl4.reverse.dropWhile Char.isWhitespace).reverse

/-- First record element of the C1 scenario: a shared leaf field and a
repeat-anchor target with two children. -/
def c1rec1 : XmlElem :=
  .node ("Journal_Entry_Data".toList) [] none
    [.node ("Shared_Field".toList) [] (some ("s1".toList)) [],
     .node ("Line_Data".toList) [] none
       [.node ("Item".toList) [] (some ("a1".toList)) [],
        .node ("Item".toList) [] (some ("a2".toList)) []]]

/-- Second record element of the C1 scenario: the repeat-anchor target
has three children. -/
def c1rec2 : XmlElem :=
  .node ("Journal_Entry_Data".toList) [] none
    [.node ("Shared_Field".toList) [] (some ("s2".toList)) [],
     .node ("Line_Data".toList) [] none
       [.node ("Item".toList) [] (some ("b1".toList)) [],
        .node ("Item".toList) [] (some ("b2".toList)) [],
        .node ("Item".toList) [] (some ("b3".toList)) []]]

/-- Directive list of the C1 scenario, preprocessed exactly as
`to_pyarrow` does: shared field, repeat anchor, nested child field. -/
def c1tags : List Str :=
  preprocessTags [("Shared_Field".toList), ("*Line_Data".toList), ("Item".toList)]

/-- Record element of the C2 scenario: one child matched by the
flatten-all directive, itself holding one leaf. -/
def c2rec : XmlElem :=
  .node ("Record".toList) [] none
    [.node ("Item".toList) [] none
      [.node ("Name".toList) [] (some ("n1".toList)) []]]

/-- Directive list of the C2 scenario: a single flatten-all directive. -/
def c2tags : List Str := preprocessTags [("~Item".toList)]

/-- Record element of the C3 counterexample: of the or-chain alternatives
`A` and `B`, only `B` exists, with a `type` discriminator and text. -/
def c3elem : XmlElem :=
  .node ("Rec".toList) [] none
    [.node ("B".toList) [(("type".toList), ("TB".toList))] (some ("tb".toList)) []]

/-- Directive list of the C3 counterexample: one or-chain with rename
target `Kind`. -/
def c3tags : List Str := preprocessTags [("A||B|=Kind".toList)]

/-- Record element used in the C6 scenarios; its contents are irrelevant
because both malformed directives fail before reading it. -/
def c6elem : XmlElem := .node ("R".toList) [] none []

/-- Or-chain directive without the mandatory rename delimiter, C6. -/
def c6orTags : List Str := preprocessTags [("A||B".toList)]

/-- Wildcard directive whose body has no `?=` delimiter, C6. -/
def c6wcTags : List Str := preprocessTags [("%Start%".toList)]

/-- Record element of the C7 counterexample: no children at all, so the
flatten-all path matches zero elements. -/
def c7elem : XmlElem := .node ("R".toList) [] none []

/-- Directive list of the C7 counterexample. -/
def c7tags : List Str := preprocessTags [("~Item".toList)]

/-- Column name driving the C9 counterexample: its bracketed
discriminator literal itself contains the namespace marker. -/
def c9col : Str := "A[@t=/wd:X]".toList

/-- Rename target of the C3 or-chain. -/
def c3kindKey : Str := "Kind".toList

/-- Default output name of the C3 or-chain directive: the raw
preprocessed tag string, under which the matched element's text is also
stored. -/
def c3rawKey : Str := "./wd:A||./wd:B|=Kind".toList

/-- Shared path of the C4 and C5 scenarios (user tag `S`, preprocessed). -/
def c4sharedTag : Str := "./wd:S".toList

/-- Fanned path of the C4 and C5 scenarios (user tag `V`, preprocessed). -/
def c4fanTag : Str := "./wd:V".toList

/-- Or-chain directive of the C3 amended theorem: three alternatives with
rename target `Kind`. -/
def c3chainTag : Str := "./wd:A||./wd:B||./wd:C|=Kind".toList

/-- Attribute directive of the C7 amended theorem (user tag `@@PJ`). -/
def c7atTag : Str := "./wd:@@PJ".toList

/-- Plain directive of the C7 amended theorem. -/
def c7plainTag : Str := "./wd:Plain".toList

/-- Flatten-all directive of the C7 amended theorem. -/
def c7flatTag : Str := "./wd:~Item".toList

/-- First or-chain alternative match of the C3 witness document. -/
def c3wA1 : XmlElem := .node ("A".toList) [] (some ("x1".toList)) []

/-- Second or-chain alternative match of the C3 witness document. -/
def c3wA2 : XmlElem := .node ("A".toList) [] (some ("x2".toList)) []

/-- Winning or-chain alternative of the C3 witness document. -/
def c3wB : XmlElem := .node ("B".toList) [(("type".toList), ("TB2".toList))] (some ("tb2".toList)) []

/-- Record element of the C3 witness: `A` matches twice, `B` once. -/
def c3wElem : XmlElem := .node ("R".toList) [] none [c3wA1, c3wA2, c3wB]

/-- Shared-field child of the C4/C5 witness element. -/
def c4wS : XmlElem := .node ("S".toList) [] (some ("sv".toList)) []

/-- First fanned child of the C4/C5 witness element. -/
def c4wV1 : XmlElem := .node ("V".toList) [] (some ("v1".toList)) []

/-- Second fanned child of the C4/C5 witness element. -/
def c4wV2 : XmlElem := .node ("V".toList) [] (some ("v2".toList)) []

/-- Record element of the C4 witness: one shared field, two fanned
matches. -/
def c4wElem : XmlElem := .node ("Rec".toList) [] none [c4wS, c4wV1, c4wV2]

/-- Record element of the C5 witness (a fresh copy so the two claims use
distinct concrete inputs). -/
def c5wElem : XmlElem := .node ("Rec2".toList) [] none [c4wS, c4wV1, c4wV2]

/-- Record element of the C7 witness: no attributes, no `Plain` or `Item`
children. -/
def c7wElem : XmlElem := .node ("R".toList) [] none [.node ("Q".toList) [] (some ("q".toList)) []]

/-- Over-long synthesized key for the C8 witness: 71 characters with one
underscore. -/
def c8wCol : Str := List.replicate 30 'a' ++ '_' :: List.replicate 40 'b'

/-- Already-finalized column name for the C9 witness. -/
def c9wCol : Str := "q=RESULT]tail".toList

/-- Username of the C10 witness, holding an XML special character. -/
def c10u : Str := "user<1".toList

/-- Password of the C10 witness, holding all three special characters. -/
def c10p : Str := "p&ss<wd>".toList

/-- Request body of the C10 witness. -/
def c10b : Str := "<Get_Workers/>".toList

/-- Helper: mapping `node.text` extraction over a list of genuine
elements never raises and returns the texts in order. -/
theorem mapM_nodeTextE_els (ms : List XmlElem) :
    List.mapM nodeTextE (ms.map XNode.el) = Except.ok (ms.map (fun m => pyOfOpt m.textOpt)) := by
  induction ms with
  | nil => rfl
  | cons m tl ih =>
    simp only [List.map_cons, List.mapM_cons, ih, nodeTextE]
    rfl

/-- Helper: `_pull_data` on a single record element is the per-element
tag loop followed by the conditional final append. -/
theorem pullData_one (ac : Bool) (tags : List Str) (e : XmlElem) :
    pullData [e] tags none ac = procElement ac [] tags e := by
  unfold pullData
  simp only [Option.getD_none]
  cases h : procElement ac [] tags e with
  | error m => simp [List.foldlM, h]
  | ok rs => simp [List.foldlM, h]

/-- Helper: on a tag with none of the directive markers, the tag loop is
exactly an xpath lookup followed by the add-to-row tail. -/
theorem processTag_plain (ac : Bool) (e : XmlElem) (st : ElemState) (tag : Str)
    (hstar : hasSub ("*".toList) tag = false)
    (htilde : hasSub ("~".toList) tag = false)
    (hhat : splitOnStr ("^^".toList) tag = [tag])
    (hat : hasSub ("@@".toList) tag = false)
    (hpct : hasSub ("%".toList) tag = false)
    (hor : hasSub ("||".toList) tag = false)
    (res : List XNode)
    (hx : xpathEval tag e = Except.ok res) :
    processTag ac e st tag = addElem ac tag res st := by
  unfold processTag
  rw [hstar, htilde, hhat]
  simp only [Bool.false_eq_true, if_false]
  unfold processPlain
  rw [hat, hpct]
  simp only [Bool.false_eq_true, if_false]
  rw [hor]
  simp only [Bool.false_eq_true, if_false, hx]

/-- Helper: the element loop body for a single-tag directive list. -/
theorem procElement_oneTag (ac : Bool) (e : XmlElem) (t1 : Str) (st1 : ElemState)
    (h1 : processTag ac e (ElemState.mk [] [] false) t1 = Except.ok st1) :
    procElement ac [] [t1] e =
      Except.ok (if st1.added then st1.rows else st1.rows ++ [st1.dict]) := by
  unfold procElement
  have hfold : List.foldlM (fun s t => processTag ac e s t) (ElemState.mk [] [] false) [t1]
      = Except.ok st1 := by
    rw [List.foldlM_cons, h1]
    show List.foldlM (fun s t => processTag ac e s t) st1 [] = Except.ok st1
    rfl
  rw [hfold]

/-- Helper: the element loop body for a two-tag directive list. -/
theorem procElement_twoTags (ac : Bool) (e : XmlElem) (t1 t2 : Str) (st1 st2 : ElemState)
    (h1 : processTag ac e (ElemState.mk [] [] false) t1 = Except.ok st1)
    (h2 : processTag ac e st1 t2 = Except.ok st2) :
    procElement ac [] [t1, t2] e =
      Except.ok (if st2.added then st2.rows else st2.rows ++ [st2.dict]) := by
  unfold procElement
  have hfold : List.foldlM (fun s t => processTag ac e s t) (ElemState.mk [] [] false) [t1, t2]
      = Except.ok st2 := by
    rw [List.foldlM_cons, h1]
    show List.foldlM (fun s t => processTag ac e s t) st1 [t2] = Except.ok st2
    rw [List.foldlM_cons, h2]
    show List.foldlM (fun s t => processTag ac e s t) st2 [] = Except.ok st2
    rfl
  rw [hfold]

/-- C4: a non-repeat-anchor directive matching M > 1 elements with
`allow_collections = false` fans the accumulated row out into exactly M
rows, pairwise identical except in the fanned column, each holding one of
the M matched values in document order (source lines 392-399).  Stated
for a record element with a preceding shared single-match directive, so
the fanned rows demonstrably agree on every other column. -/
theorem c4_fan_out (e s0 : XmlElem) (ms : List XmlElem)
    (hS : xpathEval c4sharedTag e = Except.ok [XNode.el s0])
    (hF : xpathEval c4fanTag e = Except.ok (ms.map XNode.el))
    (hM : 1 < ms.length) :
    pullData [e] [c4sharedTag, c4fanTag] none false =
      Except.ok (ms.map (fun m =>
        [(c4sharedTag, pyOfOpt s0.textOpt), (c4fanTag, pyOfOpt m.textOpt)])) := by
  obtain ⟨m0, tl, rfl⟩ : ∃ m0 tl, ms = m0 :: tl := by
    cases ms with
    | nil => simp at hM
    | cons a b => exact ⟨a, b, rfl⟩
  obtain ⟨m1, tl2, rfl⟩ : ∃ m1 tl2, tl = m1 :: tl2 := by
    cases tl with
    | nil => simp at hM
    | cons a b => exact ⟨a, b, rfl⟩
  have h1 : processTag false e (ElemState.mk [] [] false) c4sharedTag
      = Except.ok (ElemState.mk [] [(c4sharedTag, pyOfOpt s0.textOpt)] false) := by
    rw [processTag_plain false e _ c4sharedTag rfl rfl rfl rfl rfl rfl _ hS]
    rfl
  have h2 : processTag false e (ElemState.mk [] [(c4sharedTag, pyOfOpt s0.textOpt)] false) c4fanTag
      = Except.ok (ElemState.mk
          ((m0 :: m1 :: tl2).map (fun m =>
            [(c4sharedTag, pyOfOpt s0.textOpt), (c4fanTag, pyOfOpt m.textOpt)]))
          [(c4sharedTag, pyOfOpt s0.textOpt)] true) := by
    rw [processTag_plain false e _ c4fanTag rfl rfl rfl rfl rfl rfl _ hF]
    show addElem false c4fanTag (XNode.el m0 :: XNode.el m1 :: tl2.map XNode.el) _ = _
    unfold addElem
    rw [show List.mapM nodeTextE (XNode.el m0 :: XNode.el m1 :: tl2.map XNode.el)
        = Except.ok ((m0 :: m1 :: tl2).map (fun m => pyOfOpt m.textOpt))
        from mapM_nodeTextE_els (m0 :: m1 :: tl2)]
    simp only [List.map_cons, List.map_map]
    rfl
  rw [pullData_one, procElement_twoTags false e c4sharedTag c4fanTag _ _ h1 h2]
  rfl

/-- C5: the same multi-match directive with `allow_collections = true`
produces exactly one row for the element, whose fanned cell holds the
list of all M matched values in document order (source lines 382-391). -/
theorem c5_collection_packing (e s0 : XmlElem) (ms : List XmlElem)
    (hS : xpathEval c4sharedTag e = Except.ok [XNode.el s0])
    (hF : xpathEval c4fanTag e = Except.ok (ms.map XNode.el))
    (hM : 1 < ms.length) :
    pullData [e] [c4sharedTag, c4fanTag] none true =
      Except.ok [[(c4sharedTag, pyOfOpt s0.textOpt),
                  (c4fanTag, PyVal.lstV (ms.map (fun m => pyOfOpt m.textOpt)))]] := by
  obtain ⟨m0, tl, rfl⟩ : ∃ m0 tl, ms = m0 :: tl := by
    cases ms with
    | nil => simp at hM
    | cons a b => exact ⟨a, b, rfl⟩
  obtain ⟨m1, tl2, rfl⟩ : ∃ m1 tl2, tl = m1 :: tl2 := by
    cases tl with
    | nil => simp at hM
    | cons a b => exact ⟨a, b, rfl⟩
  have h1 : processTag true e (ElemState.mk [] [] false) c4sharedTag
      = Except.ok (ElemState.mk [] [(c4sharedTag, pyOfOpt s0.textOpt)] false) := by
    rw [processTag_plain true e _ c4sharedTag rfl rfl rfl rfl rfl rfl _ hS]
    rfl
  have h2 : processTag true e (ElemState.mk [] [(c4sharedTag, pyOfOpt s0.textOpt)] false) c4fanTag
      = Except.ok (ElemState.mk []
          [(c4sharedTag, pyOfOpt s0.textOpt),
           (c4fanTag, PyVal.lstV ((m0 :: m1 :: tl2).map (fun m => pyOfOpt m.textOpt)))] false) := by
    rw [processTag_plain true e _ c4fanTag rfl rfl rfl rfl rfl rfl _ hF]
    show addElem true c4fanTag (XNode.el m0 :: XNode.el m1 :: tl2.map XNode.el) _ = _
    unfold addElem
    rw [show List.mapM nodeTextE (XNode.el m0 :: XNode.el m1 :: tl2.map XNode.el)
        = Except.ok ((m0 :: m1 :: tl2).map (fun m => pyOfOpt m.textOpt))
        from mapM_nodeTextE_els (m0 :: m1 :: tl2)]
    rfl
  rw [pullData_one, procElement_twoTags true e c4sharedTag c4fanTag _ _ h1 h2]
  rfl

/-- C3 amended: the or-chain tries its alternatives in declared order and
the first alternative matching exactly one element wins — the theorem
needs no hypothesis at all about the later alternative `C`, which is
never evaluated — and the winner's `wd:type` discriminator is stored
under the rename target.  Contrary to the original claim, the matched
element's text is not discarded: it is additionally stored under the
directive's default output name, the raw tag string (source lines
373-376), which the column finalizer later renames. -/
theorem c3_or_chain_behavior (e b : XmlElem) (n1 n2 : XNode)
    (hA : xpathEval ("./wd:A".toList) e = Except.ok [n1, n2])
    (hB : xpathEval ("./wd:B".toList) e = Except.ok [XNode.el b]) :
    pullData [e] [c3chainTag] none false =
      Except.ok [[(("Kind".toList), pyOfOpt (attrGet b ("type".toList))),
                  (c3chainTag, pyOfOpt b.textOpt)]] := by
  have hloop : orChainLoop e ("Kind".toList) []
      [("./wd:A".toList), ("./wd:B".toList), ("./wd:C".toList)]
      = Except.ok ([XNode.el b], [(("Kind".toList), pyOfOpt (attrGet b ("type".toList)))]) := by
    have s1 : orChainLoop e ("Kind".toList) []
        [("./wd:A".toList), ("./wd:B".toList), ("./wd:C".toList)]
        = (match xpathEval ("./wd:A".toList) e with
           | .error m => .error m
           | .ok res =>
             match res with
             | [n] =>
               (match n with
                | .el b2 => Except.ok ([n], [(("Kind".toList), pyOfOpt (attrGet b2 ("type".toList)))])
                | .attrv _ => Except.error ("AttributeError: ResultStr object has no attribute get".toList))
             | _ => orChainLoop e ("Kind".toList) [] [("./wd:B".toList), ("./wd:C".toList)]) := rfl
    have s2 : orChainLoop e ("Kind".toList) [] [("./wd:B".toList), ("./wd:C".toList)]
        = (match xpathEval ("./wd:B".toList) e with
           | .error m => .error m
           | .ok res =>
             match res with
             | [n] =>
               (match n with
                | .el b2 => Except.ok ([n], [(("Kind".toList), pyOfOpt (attrGet b2 ("type".toList)))])
                | .attrv _ => Except.error ("AttributeError: ResultStr object has no attribute get".toList))
             | _ => orChainLoop e ("Kind".toList) [] [("./wd:C".toList)]) := rfl
    rw [s1, hA, s2, hB]
  have h1 : processTag false e (ElemState.mk [] [] false) c3chainTag
      = Except.ok (ElemState.mk []
          [(("Kind".toList), pyOfOpt (attrGet b ("type".toList))),
           (c3chainTag, pyOfOpt b.textOpt)] false) := by
    have step : processTag false e (ElemState.mk [] [] false) c3chainTag
        = (match orChainLoop e ("Kind".toList) []
             [("./wd:A".toList), ("./wd:B".toList), ("./wd:C".toList)] with
           | .error m => .error m
           | .ok (res, dict2) => addElem false c3chainTag res (ElemState.mk [] dict2 false)) := rfl
    rw [step, hloop]
    rfl
  rw [pullData_one, procElement_oneTag false e c3chainTag _ h1]
  rfl

/-- C7 amended: a zero-match directive never raises, but what is recorded
depends on the directive kind: an attribute directive stores an explicit
`None` under its output name; a plain directive stores nothing, leaving
the column absent from the row dictionary (it becomes null only at table
materialization); and a flatten-all directive stores `None` under the raw
tag but then suppresses the element's row entirely, producing no row. -/
theorem c7_zero_match_behavior (e : XmlElem)
    (hPJ : attrGet e ("PJ".toList) = none)
    (hP : xpathEval c7plainTag e = Except.ok [])
    (hT : xpathEval ("./wd:Item".toList) e = Except.ok []) :
    pullData [e] [c7atTag] none false = Except.ok [[(c7atTag, PyVal.none_)]] ∧
    pullData [e] [c7plainTag] none false = Except.ok [[]] ∧
    pullData [e] [c7flatTag] none false = Except.ok [] := by
  refine ⟨?_, ?_, ?_⟩
  · have h1 : processTag false e (ElemState.mk [] [] false) c7atTag
        = Except.ok (ElemState.mk [] [(c7atTag, PyVal.none_)] false) := by
      have step : processTag false e (ElemState.mk [] [] false) c7atTag
          = (match attrGet e ("PJ".toList) with
             | some v => Except.ok (ElemState.mk [] [(c7atTag, PyVal.str v)] false)
             | none =>
               Except.ok (ElemState.mk []
                 [(c7atTag,
                   (match (match attrGet e ("PJ".toList) with
                           | some v => [XNode.attrv v]
                           | none => ([] : List XNode)) with
                    | [] => PyVal.none_
                    | n :: _ => pyvalOfNode n))] false)) := rfl
      rw [step, hPJ]
    rw [pullData_one, procElement_oneTag false e c7atTag _ h1]
    rfl
  · have h1 : processTag false e (ElemState.mk [] [] false) c7plainTag
        = Except.ok (ElemState.mk [] [] false) := by
      rw [processTag_plain false e _ c7plainTag rfl rfl rfl rfl rfl rfl _ hP]
      rfl
    rw [pullData_one, procElement_oneTag false e c7plainTag _ h1]
    rfl
  · have h1 : processTag false e (ElemState.mk [] [] false) c7flatTag
        = Except.ok (ElemState.mk [] [(c7flatTag, PyVal.none_)] true) := by
      have step : processTag false e (ElemState.mk [] [] false) c7flatTag
          = (match xpathEval ("./wd:Item".toList) e with
             | .error m => .error m
             | .ok elems =>
               match elems with
               | [] => Except.ok (ElemState.mk [] [(c7flatTag, PyVal.none_)] true)
               | [n] =>
                 (match n with
                  | .el ee => Except.ok (ElemState.mk [] (rowFold [] (extractElementData 63 [] ee)) true)
                  | .attrv _ => Except.error flattenTypeErrMsg)
               | _ :: _ :: _ =>
                 match nodesAsElems elems with
                 | .error m => .error m
                 | .ok els =>
                   Except.ok (ElemState.mk (els.map (fun ee => rowFold [] (extractElementData 63 [] ee))) [] true)) := rfl
      rw [step, hT]
    rw [pullData_one, procElement_oneTag false e c7flatTag _ h1]
    rfl

/-- Helper: a successful `find` returns an in-range index at or after the
start, holding the sought character. -/
theorem findCharFrom_some (ch : Char) (l : Str) (s i : Nat)
    (h : findCharFrom ch l s = some i) :
    s ≤ i ∧ i < l.length ∧ l.get? i = some ch := by
  induction l generalizing s i with
  | nil => simp [findCharFrom] at h
  | cons c rest ih =>
    cases s with
    | zero =>
      by_cases hc : c = ch
      · rw [findCharFrom, if_pos hc] at h
        cases h
        simp [hc]
      · rw [findCharFrom, if_neg hc] at h
        obtain ⟨j, hj, rfl⟩ := Option.map_eq_some'.mp h
        obtain ⟨h1, h2, h3⟩ := ih 0 j hj
        exact ⟨Nat.zero_le _, by simpa using Nat.succ_lt_succ h2, by simpa using h3⟩
    | succ s =>
      rw [findCharFrom] at h
      obtain ⟨j, hj, rfl⟩ := Option.map_eq_some'.mp h
      obtain ⟨h1, h2, h3⟩ := ih s j hj
      exact ⟨Nat.succ_le_succ h1, by simpa using Nat.succ_lt_succ h2, by simpa using h3⟩

/-- Helper: a failed `find` means the character does not occur at or
after the start index. -/
theorem findCharFrom_none (ch : Char) (l : Str) (s : Nat)
    (h : findCharFrom ch l s = none) :
    ∀ k, s ≤ k → l.get? k ≠ some ch := by
  induction l generalizing s with
  | nil => intro k _; simp
  | cons c rest ih =>
    cases s with
    | zero =>
      intro k _
      by_cases hc : c = ch
      · rw [findCharFrom, if_pos hc] at h
        cases h
      · rw [findCharFrom, if_neg hc] at h
        have hrest := ih 0 (by simpa using h)
        cases k with
        | zero => simpa using hc
        | succ k => simpa using hrest k (Nat.zero_le _)
    | succ s =>
      intro k hk
      rw [findCharFrom] at h
      have hrest := ih s (by simpa using h)
      cases k with
      | zero => omega
      | succ k => simpa using hrest k (by omega)

/-- Helper: a successful `rfind` returns an index before the stop bound
holding the sought character. -/
theorem rfindCharBefore_some (ch : Char) (l : Str) (s j : Nat)
    (h : rfindCharBefore ch l s = some j) :
    j < s ∧ l.get? j = some ch := by
  induction l generalizing s j with
  | nil => simp [rfindCharBefore] at h
  | cons c rest ih =>
    cases s with
    | zero => simp [rfindCharBefore] at h
    | succ s =>
      rw [rfindCharBefore] at h
      cases hr : rfindCharBefore ch rest s with
      | some j' =>
        rw [hr] at h
        cases h
        obtain ⟨h1, h2⟩ := ih s j' hr
        exact ⟨Nat.succ_lt_succ h1, by simpa using h2⟩
      | none =>
        rw [hr] at h
        by_cases hc : c = ch
        · rw [if_pos hc] at h
          cases h
          simp [hc]
        · rw [if_neg hc] at h
          cases h

/-- Helper: `rfind` finds an index at least as large as any occurrence
before the stop bound. -/
theorem rfindCharBefore_ge (ch : Char) (l : Str) (s k : Nat)
    (hk : k < s) (hget : l.get? k = some ch) :
    ∃ j, rfindCharBefore ch l s = some j ∧ k ≤ j := by
  induction l generalizing s k with
  | nil => simp at hget
  | cons c rest ih =>
    cases s with
    | zero => omega
    | succ s =>
      cases k with
      | zero =>
        have hc : c = ch := by simpa using hget
        rw [rfindCharBefore]
        cases hr : rfindCharBefore ch rest s with
        | some j' => exact ⟨j' + 1, rfl, Nat.zero_le _⟩
        | none => exact ⟨0, by rw [if_pos hc], Nat.le_refl 0⟩
      | succ k =>
        obtain ⟨j', hj', hkj'⟩ := ih s k (by omega) (by simpa using hget)
        rw [rfindCharBefore, hj']
        exact ⟨j' + 1, rfl, Nat.succ_le_succ hkj'⟩

/-- Helper: a failed `rfind` means the character does not occur before
the stop bound. -/
theorem rfindCharBefore_none (ch : Char) (l : Str) (s : Nat)
    (h : rfindCharBefore ch l s = none) :
    ∀ k, k < s → l.get? k ≠ some ch := by
  intro k hk hget
  obtain ⟨j, hj, _⟩ := rfindCharBefore_ge ch l s k hk hget
  rw [h] at hj
  cases hj

/-- Helper: full specification of `_shorten_column_name` on an
over-long name: the result fits the bound, is a suffix, and starts right
after an underscore whenever some underscore cut could fit. -/
theorem shortenColumnName_spec (col : Str) (maxLength : Nat)
    (hm : 0 < maxLength) (h : maxLength < col.length) :
    (shortenColumnName col maxLength).length ≤ maxLength ∧
    (shortenColumnName col maxLength) <:+ col ∧
    ((∃ i, i < col.length ∧ col.get? i = some '_' ∧ col.length - i - 1 ≤ maxLength) →
      ∃ i, i < col.length ∧ col.get? i = some '_' ∧
        shortenColumnName col maxLength = col.drop (i + 1)) := by
  have hnle : ¬ (col.length ≤ maxLength) := by omega
  cases hf : findCharFrom '_' col (col.length - maxLength) with
  | some i =>
    obtain ⟨his, hilen, higet⟩ := findCharFrom_some '_' col _ i hf
    have hfit : col.length - i - 1 ≤ maxLength := by omega
    have hval : shortenColumnName col maxLength = col.drop (i + 1) := by
      rw [shortenColumnName, if_neg hnle]
      simp only [hf, if_pos hfit]
    rw [hval]
    refine ⟨by rw [List.length_drop]; omega, List.drop_suffix _ _, fun _ => ⟨i, hilen, higet, rfl⟩⟩
  | none =>
    have hnone := findCharFrom_none '_' col _ hf
    cases hr : rfindCharBefore '_' col (col.length - maxLength) with
    | some j =>
      obtain ⟨hjs, hjget⟩ := rfindCharBefore_some '_' col _ j hr
      have hjlen : j < col.length := by
        by_contra hc
        rw [List.get?_eq_none.mpr (by omega)] at hjget
        cases hjget
      by_cases hcond : col.length - j - 1 ≤ maxLength
      · have hval : shortenColumnName col maxLength = col.drop (j + 1) := by
          rw [shortenColumnName, if_neg hnle]
          simp only [hf, shortenFallback, hr, if_pos hcond]
        rw [hval]
        refine ⟨by rw [List.length_drop]; omega, List.drop_suffix _ _, fun _ => ⟨j, hjlen, hjget, rfl⟩⟩
      · have hval : shortenColumnName col maxLength = col.drop (col.length - maxLength) := by
          rw [shortenColumnName, if_neg hnle]
          simp only [hf, shortenFallback, hr, if_neg hcond, lastN, if_neg (by omega : ¬ maxLength = 0)]
        rw [hval]
        refine ⟨by rw [List.length_drop]; omega, List.drop_suffix _ _, ?_⟩
        rintro ⟨i, hilen, higet, hifit⟩
        have hi1 : i < col.length - maxLength := by
          by_contra hc
          exact hnone i (by omega) higet
        obtain ⟨j', hj', hij'⟩ := rfindCharBefore_ge '_' col _ i hi1 higet
        rw [hr] at hj'
        injection hj' with hjj
        exact absurd (by omega : col.length - j - 1 ≤ maxLength) hcond
    | none =>
      have hval : shortenColumnName col maxLength = col.drop (col.length - maxLength) := by
        rw [shortenColumnName, if_neg hnle]
        simp only [hf, shortenFallback, hr, lastN, if_neg (by omega : ¬ maxLength = 0)]
      rw [hval]
      refine ⟨by rw [List.length_drop]; omega, List.drop_suffix _ _, ?_⟩
      rintro ⟨i, hilen, higet, hifit⟩
      have hi1 : i < col.length - maxLength := by
        by_contra hc
        exact hnone i (by omega) higet
      exact (rfindCharBefore_none '_' col _ hr i hi1 higet).elim

/-- Helper: a bracket literal extracted by the rename regex never
contains a closing bracket (the lazy group stops at the first one). -/
theorem reSearch_some_no_rb (col g : Str) (h : reSearchEqBracket col = some g) :
    ']' ∉ g := by
  induction col with
  | nil => simp [reSearchEqBracket] at h
  | cons c rest ih =>
    rw [reSearchEqBracket] at h
    cases hc : (c = '=' && ((rest.takeWhile (fun x => x ≠ nlChar)).contains ']')) with
    | true =>
      rw [hc, if_pos rfl] at h
      cases h
      intro hm
      have := List.mem_takeWhile_imp hm
      simp at this
    | false =>
      rw [hc] at h
      simp only [Bool.false_eq_true, if_false] at h
      exact ih h

/-- Helper: the rename regex cannot match a string holding no closing
bracket. -/
theorem reSearch_none_of_no_rb (l : Str) (h : ']' ∉ l) :
    reSearchEqBracket l = none := by
  induction l with
  | nil => rfl
  | cons c rest ih =>
    have hrest : ']' ∉ rest := fun hm => h (List.mem_cons_of_mem _ hm)
    have hcond : ¬ ((c = '=' && ((rest.takeWhile (fun x => x ≠ nlChar)).contains ']')) = true) := by
      intro hc
      rw [Bool.and_eq_true] at hc
      have hmem : ']' ∈ rest.takeWhile (fun x => x ≠ nlChar) := by
        have := hc.2
        simpa using this
      exact hrest ((List.takeWhile_sublist _).subset hmem)
    rw [reSearchEqBracket, if_neg hcond, ih hrest]

/-- Helper: if the rename regex does not match a string, it does not
match any suffix of it either. -/
theorem reSearch_none_suffix (col : Str) (h : reSearchEqBracket col = none)
    (f : Str) (hf : f <:+ col) : reSearchEqBracket f = none := by
  induction col generalizing f with
  | nil =>
    rw [List.suffix_nil.mp hf]
    exact h
  | cons c rest ih =>
    have hrest : reSearchEqBracket rest = none := by
      rw [reSearchEqBracket] at h
      cases hc : (c = '=' && ((rest.takeWhile (fun x => x ≠ nlChar)).contains ']')) with
      | true => rw [hc, if_pos rfl] at h; cases h
      | false =>
        rw [hc] at h
        simpa only [Bool.false_eq_true, if_false] using h
    rcases List.suffix_cons_iff.mp hf with rfl | hsuf
    · exact h
    · exact ih hrest f hsuf

/-- Helper: if the separator does not occur in a string, it occurs in no
suffix of it. -/
theorem hasSubCore_suffix_false (s0 : Char) (ss l : Str)
    (h : hasSubCore s0 ss l = false) (f : Str) (hf : f <:+ l) :
    hasSubCore s0 ss f = false := by
  induction l generalizing f with
  | nil => rw [List.suffix_nil.mp hf]; exact h
  | cons c rest ih =>
    rw [hasSubCore, Bool.or_eq_false_iff] at h
    rcases List.suffix_cons_iff.mp hf with rfl | hsuf
    · rw [hasSubCore, Bool.or_eq_false_iff]
      exact h
    · exact ih h.2 f hsuf

/-- Helper: when the last-occurrence scan fails, the separator does not
occur in the string. -/
theorem lastAfterCore_none (s0 : Char) (ss l : Str)
    (h : lastAfterCore s0 ss l = none) : hasSubCore s0 ss l = false := by
  induction l with
  | nil => rfl
  | cons c rest ih =>
    rw [lastAfterCore] at h
    cases hla : lastAfterCore s0 ss rest with
    | some r => rw [hla] at h; cases h
    | none =>
      rw [hla] at h
      cases hc : (c = s0 && ss.isPrefixOf rest) with
      | true => rw [hc, if_pos rfl] at h; cases h
      | false =>
        rw [hasSubCore, Bool.or_eq_false_iff]
        exact ⟨hc, ih hla⟩

/-- Helper: the last piece returned by the last-occurrence scan is a
suffix of the input and is free of the separator. -/
theorem lastAfterCore_some (s0 : Char) (ss l : Str) :
    ∀ r, lastAfterCore s0 ss l = some r →
      hasSubCore s0 ss r = false ∧ r <:+ l := by
  induction l with
  | nil => intro r h; simp [lastAfterCore] at h
  | cons c rest ih =>
    intro r h
    rw [lastAfterCore] at h
    cases hla : lastAfterCore s0 ss rest with
    | some r' =>
      rw [hla] at h
      injection h with hrr
      subst hrr
      obtain ⟨h1, h2⟩ := ih _ hla
      exact ⟨h1, h2.trans (List.suffix_cons _ _)⟩
    | none =>
      rw [hla] at h
      cases hc : (c = s0 && ss.isPrefixOf rest) with
      | true =>
        rw [hc, if_pos rfl] at h
        cases h
        have hnone := lastAfterCore_none s0 ss rest hla
        have hsuf : rest.drop ss.length <:+ rest := List.drop_suffix _ _
        exact ⟨hasSubCore_suffix_false s0 ss rest hnone _ hsuf,
               hsuf.trans (List.suffix_cons _ _)⟩
      | false =>
        rw [hc] at h
        simp only [Bool.false_eq_true, if_false] at h
        exact Option.noConfusion h

/-- C9 amended: the column-rename computation is idempotent on every
finalized name that does not itself contain the namespace marker `/wd:`.
(The hypothesis is necessary: `c9_counterexample` shows a bracket literal
containing `/wd:` is renamed again by the second pass.)  Bracket
extraction always yields a name without `]`, which the regex can never
match again, and a last path segment never contains `/wd:` nor a regex
match, so a second pass leaves both kinds of result unchanged. -/
theorem c9_rename_second_pass (col : Str)
    (hw : hasSub ("/wd:".toList) (colRename col) = false) :
    colRename (colRename col) = colRename col := by
  cases hs : reSearchEqBracket col with
  | some g =>
    have hcr : colRename col = g.filter (fun c => c ≠ apos) := by
      rw [colRename, hs]
    have hnb : ']' ∉ g := reSearch_some_no_rb col g hs
    have hnb2 : ']' ∉ g.filter (fun c => c ≠ apos) :=
      fun hm => hnb (List.mem_of_mem_filter hm)
    have hre : reSearchEqBracket (g.filter (fun c => c ≠ apos)) = none :=
      reSearch_none_of_no_rb _ hnb2
    rw [hcr] at hw ⊢
    rw [colRename, hre, hw]
    simp only [Bool.false_eq_true, if_false]
  | none =>
    have hcr : colRename col =
        (if hasSub ("/wd:".toList) col then lastSegAfter ("/wd:".toList) col else col) := by
      rw [colRename, hs]
    cases hwcol : hasSub ("/wd:".toList) col with
    | true =>
      have hf : colRename col = lastSegAfter ("/wd:".toList) col := by
        rw [hcr, hwcol, if_pos rfl]
      cases hla : lastAfterCore '/' ("wd:".toList) col with
      | some r =>
        have hseg : lastSegAfter ("/wd:".toList) col = r := by
          show (match lastAfterCore '/' ("wd:".toList) col with
                | some r => r
                | none => col) = r
          rw [hla]
        obtain ⟨hno, hsuf⟩ := lastAfterCore_some '/' ("wd:".toList) col r hla
        have h1 : reSearchEqBracket r = none := reSearch_none_suffix col hs r hsuf
        have h2 : hasSub ("/wd:".toList) r = false := hno
        rw [hf, hseg, colRename, h1, h2]
        simp only [Bool.false_eq_true, if_false]
      | none =>
        have hseg : lastSegAfter ("/wd:".toList) col = col := by
          show (match lastAfterCore '/' ("wd:".toList) col with
                | some r => r
                | none => col) = col
          rw [hla]
        have hcc : colRename col = col := by rw [hf, hseg]
        rw [hcc]
        exact hcc
    | false =>
      have hcc : colRename col = col := by
        rw [hcr, hwcol]
        simp only [Bool.false_eq_true, if_false]
      rw [hcc]
      exact hcc

/-- Helper: no escaped character expansion contains a literal `<`. -/
theorem escChar_no_lt (c : Char) : '<' ∉ escChar c := by
  unfold escChar
  split
  · decide
  · split
    · decide
    · split
      · decide
      · split
        · decide
        · split
          · decide
          · rename_i h1 h2 h3 h4 h5
            intro hm
            rw [List.mem_singleton] at hm
            exact h2 hm.symm

/-- Helper: no escaped character expansion contains a literal `>`. -/
theorem escChar_no_gt (c : Char) : '>' ∉ escChar c := by
  unfold escChar
  split
  · decide
  · split
    · decide
    · split
      · decide
      · split
        · decide
        · split
          · decide
          · rename_i h1 h2 h3 h4 h5
            intro hm
            rw [List.mem_singleton] at hm
            exact h3 hm.symm

/-- Helper: the expansion of every character of the input occurs
contiguously inside the escaped output. -/
theorem escChar_infix_escapeHtml (p : Str) (c : Char) (hc : c ∈ p) :
    escChar c <:+: escapeHtml p := by
  obtain ⟨s, t, rfl⟩ := List.append_of_mem hc
  unfold escapeHtml
  refine ⟨s.flatMap escChar, t.flatMap escChar, ?_⟩
  rw [List.flatMap_append, List.flatMap_cons]
  simp [List.append_assoc]

/-- Helper: the envelope built by `create_payload` decomposes into the
stripped leading template, the verbatim username, fixed template text,
the escaped password, fixed template text, the verbatim body, and the
stripped trailing template. -/
theorem createPayload_decomp (u p b : Str) :
    createPayload u p b
      = soapPre ++ (u ++ (soapTmpl2 ++ (escapeHtml p ++ (soapTmpl3 ++ (b ++ soapPost))))) := by
  unfold createPayload pyStrip
  simp only [List.append_assoc]
  rw [List.dropWhile_append, if_neg (by decide)]
  simp only [List.reverse_append, List.append_assoc]
  rw [List.dropWhile_append, if_neg (by decide)]
  simp only [List.reverse_append, List.reverse_reverse, List.append_assoc]
  rfl

/-- C8: for every synthesized flatten-all key longer than 63 characters,
the shortened key (as produced by `_shorten_column_name` with the
extractor's maximum of 63) has length at most 63, is a suffix of the
original key, and whenever some underscore cut could yield a fitting
suffix, the result starts immediately after an underscore of the
original key. -/
theorem c8_shorten_column_name (col : Str) (h : 63 < col.length) :
    (shortenColumnName col 63).length ≤ 63 ∧
    (shortenColumnName col 63) <:+ col ∧
    ((∃ i, i < col.length ∧ col.get? i = some '_' ∧ col.length - i - 1 ≤ 63) →
      ∃ i, i < col.length ∧ col.get? i = some '_' ∧
        shortenColumnName col 63 = col.drop (i + 1)) :=
  shortenColumnName_spec col 63 (by omega) h

/-- C10: the SOAP envelope embeds the HTML-escaped password but the
username and request body verbatim.  The envelope decomposes around the
three interpolations; the escaped password contains no literal angle
brackets while every password character's entity expansion (its
`escChar`, e.g. the `&lt;` entity for a literal `<`) appears contiguously
in the envelope; and every username character — XML-special or not —
appears unescaped because the username is spliced in verbatim. -/
theorem c10_payload_escaping (u p b : Str) :
    createPayload u p b
      = soapPre ++ (u ++ (soapTmpl2 ++ (escapeHtml p ++ (soapTmpl3 ++ (b ++ soapPost))))) ∧
    '<' ∉ escapeHtml p ∧ '>' ∉ escapeHtml p ∧
    (∀ c, c ∈ p → escChar c <:+: createPayload u p b) ∧
    (∀ c, c ∈ u → c ∈ createPayload u p b) := by
  have hd := createPayload_decomp u p b
  refine ⟨hd, ?_, ?_, ?_, ?_⟩
  · intro hm
    obtain ⟨c, hc, hmm⟩ := List.mem_flatMap.mp hm
    exact escChar_no_lt c hmm
  · intro hm
    obtain ⟨c, hc, hmm⟩ := List.mem_flatMap.mp hm
    exact escChar_no_gt c hmm
  · intro c hc
    have h1 := escChar_infix_escapeHtml p c hc
    have h2 : escapeHtml p <:+: createPayload u p b := by
      rw [hd]
      exact ⟨soapPre ++ u ++ soapTmpl2,
             soapTmpl3 ++ (b ++ soapPost), by simp [List.append_assoc]⟩
    exact h1.trans h2
  · intro c hc
    rw [hd]
    simp [hc]
/-- C1: the claim expects the two-document nested-repeat scenario (2 and
3 nested matches plus one shared field) to produce 5 rows.  The code
cannot: the repeat-anchor branch of `_pull_data` calls the undefined name
`pull_data` (source line 256), so the extraction raises `NameError` as
soon as the anchor directive is reached. -/
theorem c1_repeat_anchor_raises :
    pullData [c1rec1, c1rec2] c1tags none false = Except.error nameErrorMsg := rfl

/-- C2: the claim expects K rows for K record elements when the directive
list has no fan-out and no repeat-anchor, explicitly including a
flatten-all directive matching exactly one element.  On that very case
the code yields 0 rows for the element: the flatten-all branch sets
`added_to_list = True` unconditionally (source line 294), so the
accumulated row — nested data already merged in — is never appended. -/
theorem c2_flatten_single_match_yields_no_row :
    pullData [c2rec] c2tags none false = Except.ok [] := rfl

/-- C3 counterexample: the or-chain records the discriminator under the
rename target, but — contrary to the claim that no other column is
written — control then falls through to the generic add-to-row tail
(source lines 373-376), which also stores the matched element's text
under the directive's raw tag string. -/
theorem c3_counterexample :
    pullData [c3elem] c3tags none false =
      Except.ok [[(c3kindKey, PyVal.str ("TB".toList)), (c3rawKey, PyVal.str ("tb".toList))]]
    ∧ c3rawKey ≠ c3kindKey := ⟨rfl, by decide⟩

/-- C6 counterexample: an or-chain without the trailing rename delimiter
is not skipped with a diagnostic — `tag.split('|=')[1]` (source line 361)
raises an uncaught `IndexError`, aborting the whole extraction. -/
theorem c6_counterexample :
    pullData [c6elem] c6orTags none false = Except.error indexErrMsg := rfl

/-- C6 amended: malformed directives abort the extraction instead of
being skipped.  A missing `|=` rename raises `IndexError`; a wildcard
body without `?=` is caught and reported, but the directive is then
rebuilt as the empty xpath expression, whose evaluation raises.  Both
failures happen before the record element is inspected, hence hold for
every element. -/
theorem c6_malformed_directives_abort (e : XmlElem) :
    pullData [e] c6orTags none false = Except.error indexErrMsg ∧
    pullData [e] c6wcTags none false = Except.error xpathErrMsg := ⟨rfl, rfl⟩

/-- C7 counterexample: a flatten-all directive whose path matches zero
elements does store `None` under the raw tag, but the unconditional
`added_to_list = True` (source line 294) then drops the element's row
entirely — no row with the null column is produced, contrary to the
claim. -/
theorem c7_counterexample :
    pullData [c7elem] c7tags none false = Except.ok [] := rfl

/-- C9 counterexample: the rename computation is not idempotent.  For the
raw column `A[@t=/wd:X]` the first pass extracts the bracket literal
`/wd:X`; the second pass sees the namespace marker and cuts the name down
to `X`. -/
theorem c9_counterexample :
    colRename (colRename c9col) ≠ colRename c9col := by decide

/-- C3 witness: the amended or-chain theorem applied to a concrete record
element where `A` matches twice and `B` once. -/
theorem c3_or_chain_witness :
    pullData [c3wElem] [c3chainTag] none false =
      Except.ok [[(("Kind".toList), pyOfOpt (attrGet c3wB ("type".toList))),
                  (c3chainTag, pyOfOpt c3wB.textOpt)]] :=
  c3_or_chain_behavior c3wElem c3wB (XNode.el c3wA1) (XNode.el c3wA2) rfl rfl

/-- C4 witness: the fan-out theorem applied to a concrete record element
with one shared field and two fanned matches. -/
theorem c4_fan_out_witness :
    pullData [c4wElem] [c4sharedTag, c4fanTag] none false =
      Except.ok ([c4wV1, c4wV2].map (fun m =>
        [(c4sharedTag, pyOfOpt c4wS.textOpt), (c4fanTag, pyOfOpt m.textOpt)])) :=
  c4_fan_out c4wElem c4wS [c4wV1, c4wV2] rfl rfl (by decide)

/-- C5 witness: the collection-packing theorem applied to a concrete
record element with two fanned matches. -/
theorem c5_collection_witness :
    pullData [c5wElem] [c4sharedTag, c4fanTag] none true =
      Except.ok [[(c4sharedTag, pyOfOpt c4wS.textOpt),
                  (c4fanTag, PyVal.lstV ([c4wV1, c4wV2].map (fun m => pyOfOpt m.textOpt)))]] :=
  c5_collection_packing c5wElem c4wS [c4wV1, c4wV2] rfl rfl (by decide)

/-- C6 witness: the malformed-directive theorem applied to a concrete
record element. -/
theorem c6_malformed_witness :
    pullData [c6elem] c6orTags none false = Except.error indexErrMsg ∧
    pullData [c6elem] c6wcTags none false = Except.error xpathErrMsg :=
  c6_malformed_directives_abort c6elem

/-- C7 witness: the zero-match theorem applied to a concrete record
element with neither the attribute nor the queried children. -/
theorem c7_zero_match_witness :
    pullData [c7wElem] [c7atTag] none false = Except.ok [[(c7atTag, PyVal.none_)]] ∧
    pullData [c7wElem] [c7plainTag] none false = Except.ok [[]] ∧
    pullData [c7wElem] [c7flatTag] none false = Except.ok [] :=
  c7_zero_match_behavior c7wElem rfl rfl rfl

/-- C8 witness: the shortening theorem applied to a concrete 71-character
key. -/
theorem c8_shorten_witness :
    63 < c8wCol.length ∧
    ((shortenColumnName c8wCol 63).length ≤ 63 ∧
     (shortenColumnName c8wCol 63) <:+ c8wCol ∧
     ((∃ i, i < c8wCol.length ∧ c8wCol.get? i = some '_' ∧ c8wCol.length - i - 1 ≤ 63) →
       ∃ i, i < c8wCol.length ∧ c8wCol.get? i = some '_' ∧
         shortenColumnName c8wCol 63 = c8wCol.drop (i + 1))) :=
  ⟨by decide, c8_shorten_column_name c8wCol (by decide)⟩

/-- C9 witness: the amended idempotence theorem applied to a concrete
finalized name free of the namespace marker. -/
theorem c9_rename_witness :
    hasSub ("/wd:".toList) (colRename c9wCol) = false ∧
    colRename (colRename c9wCol) = colRename c9wCol :=
  ⟨by decide, c9_rename_second_pass c9wCol (by decide)⟩

/-- C10 witness: the escaping theorem applied to concrete credentials
holding XML special characters. -/
theorem c10_payload_witness :
    createPayload c10u c10p c10b
      = soapPre ++ (c10u ++ (soapTmpl2 ++ (escapeHtml c10p ++ (soapTmpl3 ++ (c10b ++ soapPost))))) ∧
    '<' ∉ escapeHtml c10p ∧ '>' ∉ escapeHtml c10p ∧
    (∀ c, c ∈ c10p → escChar c <:+: createPayload c10u c10p c10b) ∧
    (∀ c, c ∈ c10u → c ∈ createPayload c10u c10p c10b) :=
  c10_payload_escaping c10u c10p c10b
